import Mathlib

/-!
Verification of the antigine Feature Request Lifecycle Engine.

This file gives a shallow embedding, in Lean 4, of the parts of the
antigine repository that the specification's claims are about:

* `src/antigine/managers/ProjectLedgerManager.py` — the SQLite-backed
  project ledger (`add_feature`, `update_feature_status`,
  `mark_feature_implemented`, `mark_feature_superseded`,
  `add_feature_document`), together with the schema and constraint
  behaviour of `src/core/database.py` (CHECK constraints, primary key,
  foreign keys, per-connection transactions).
* `src/antigine/core/agents/feature_request_agent.py` — the LangGraph
  workflow (`FeatureRequestAgent`): the six node functions, the four
  conditional-edge functions, JSON response parsing with its fallback,
  and the deterministic similarity fallback of
  `_classify_relationship_with_llm`.

Python floats are modelled as exact decimal numbers (`Dec`); every
comparison performed by the code happens between short decimal literals,
where exact decimal and IEEE-754 comparison agree.  SQLite tables are
modelled as in-memory lists of rows; a statement that would raise
`sqlite3.Error` is modelled with `Except`.  Wall-clock timestamps are
threaded explicitly as natural-number ticks.  The external oracles (LLM
calls, ChromaDB semantic search, the interactive CLI decision) are
parameters of the workflow step function, exactly at the call sites the
source uses them.
-/

/-! ## Exact decimal numbers, modelling the Python floats used by the engine -/

/-- An exact decimal number `num / 10 ^ exp`.  The engine's confidence and
similarity scores are Python floats written as short decimal literals;
`Dec` models them exactly. -/
structure Dec where
  num : Int
  exp : Nat
deriving Repr, DecidableEq

instance : OfScientific Dec :=
  ⟨fun m b e => if b then ⟨(m : Int), e⟩ else ⟨(m : Int) * 10 ^ e, 0⟩⟩

instance (n : Nat) : OfNat Dec n := ⟨⟨(n : Int), 0⟩⟩

/-- Ordering on `Dec` by cross multiplication. -/
def Dec.le (a b : Dec) : Prop := a.num * 10 ^ b.exp ≤ b.num * 10 ^ a.exp

instance : LE Dec := ⟨Dec.le⟩

instance : DecidableRel (· ≤ · : Dec → Dec → Prop) := fun a b =>
  inferInstanceAs (Decidable (a.num * 10 ^ b.exp ≤ b.num * 10 ^ a.exp))

/-- Strict ordering on `Dec` by cross multiplication. -/
def Dec.lt (a b : Dec) : Prop := a.num * 10 ^ b.exp < b.num * 10 ^ a.exp

instance : LT Dec := ⟨Dec.lt⟩

instance : DecidableRel (· < · : Dec → Dec → Prop) := fun a b =>
  inferInstanceAs (Decidable (a.num * 10 ^ b.exp < b.num * 10 ^ a.exp))

deriving instance DecidableEq for Except

/-! ## Characters, digit strings and feature-id arithmetic

`add_feature` builds ids with Python's `f"{n:03d}"` formatting and reads
them back with `int(feature_id.split("-")[1])`; the SQL query compares
`CAST(SUBSTR(feature_id, LENGTH(initials) + 2) AS INTEGER)`.  The helpers
below model those three operations on `String`. -/

/-- Is `c` an ASCII decimal digit? -/
def isDigitChar (c : Char) : Bool := 48 ≤ c.toNat && c.toNat ≤ 57

/-- Numeric value of an ASCII digit. -/
def digitVal (c : Char) : Nat := c.toNat - 48

/-- Helper for `natDigits`: the structural fuel keeps the recursion
kernel-reducible; `n + 1` units of fuel always suffice because each step
divides `n` by ten. -/
def natDigitsAux : Nat → Nat → List Char
  | 0, _ => []
  | fuel + 1, n =>
    if n < 10 then [Char.ofNat (48 + n)]
    else natDigitsAux fuel (n / 10) ++ [Char.ofNat (48 + n % 10)]

/-- Decimal digits of `n`, most significant first (as Python's `str(n)`). -/
def natDigits (n : Nat) : List Char := natDigitsAux (n + 1) n

/-- Value of a digit string, as the usual left fold (leading zeros allowed). -/
def parseDigits (cs : List Char) : Nat :=
  cs.foldl (fun a c => a * 10 + digitVal c) 0

/-- Python's `f"{n:03d}"`: decimal digits of `n` left-padded with `'0'` to
width 3. -/
def pad3 (n : Nat) : List Char :=
  List.replicate (3 - (natDigits n).length) '0' ++ natDigits n

/-- The feature id `f"{initials}-{n:03d}"` built by `add_feature`. -/
def mkFeatureId (initials : String) (n : Nat) : String :=
  initials ++ "-" ++ String.mk (pad3 n)

/-- Python's `s.split("-")[1]`: the characters between the first dash and
the following dash (or the end of the string).  Empty when the string has
no dash at all (where Python would raise `IndexError`). -/
def splitDashSecond (s : String) : List Char :=
  ((s.data.dropWhile (· ≠ '-')).drop 1).takeWhile (· ≠ '-')

/-- Python's `int(s.split("-")[1])` as used by `add_feature`; `Except`
models the `IndexError`/`ValueError` the interpreter would raise. -/
def pyIntSuffix (s : String) : Except String Nat :=
  let part := splitDashSecond s
  if part ≠ [] && part.all isDigitChar then .ok (parseDigits part)
  else .error "invalid feature id suffix"

/-- SQLite's `CAST(SUBSTR(feature_id, LENGTH(initials) + 2) AS INTEGER)`:
drop the prefix of length `LENGTH(initials) + 1`, then read the longest
leading run of digits (`0` when there is none). -/
def castSuffix (initials : String) (fid : String) : Nat :=
  parseDigits ((fid.data.drop (initials.length + 1)).takeWhile isDigitChar)

/-- The SQL filter `feature_id LIKE '{initials}-%'`. -/
def likeDashPercent (initials : String) (fid : String) : Bool :=
  List.isPrefixOf (initials ++ "-").data fid.data

/-! ## Python string helpers used by the agent -/

/-- Python whitespace for `str.strip()`. -/
def isPySpace (c : Char) : Bool :=
  c = ' ' || c = '\t' || c = '\n' || c = '\r' || c.toNat = 11 || c.toNat = 12

/-- Python's `s.strip()`. -/
def pyStrip (cs : List Char) : List Char :=
  ((cs.dropWhile isPySpace).reverse.dropWhile isPySpace).reverse

/-- ASCII lower-casing, modelling `str.lower()` on the agent's ASCII
responses. -/
def asciiLower (cs : List Char) : List Char :=
  cs.map fun c =>
    if 65 ≤ c.toNat && c.toNat ≤ 90 then Char.ofNat (c.toNat + 32) else c

/-! ## JSON, modelling `json.loads` as called by `_parse_validation_response`

The grammar covers objects, arrays, strings with the common escapes,
decimal numerals (without exponent part) and the three literals.  A fuel
argument makes the recursive-descent parser total; `jsonLoads` supplies
more fuel than any input can consume, so running out of fuel never
rejects a parseable input. -/

/-- JSON values. -/
inductive Json where
  | null
  | bool (b : Bool)
  | num (d : Dec)
  | str (s : String)
  | arr (elems : List Json)
  | obj (fields : List (String × Json))
deriving Repr

/-- JSON insignificant whitespace. -/
def isJsonWs (c : Char) : Bool :=
  c = ' ' || c = '\t' || c = '\n' || c = '\r'

/-- Value of a hexadecimal digit. -/
def hexVal (c : Char) : Option Nat :=
  if 48 ≤ c.toNat && c.toNat ≤ 57 then some (c.toNat - 48)
  else if 97 ≤ c.toNat && c.toNat ≤ 102 then some (c.toNat - 87)
  else if 65 ≤ c.toNat && c.toNat ≤ 70 then some (c.toNat - 55)
  else none

/-- Body of a JSON string literal, after the opening quote: returns the
decoded characters and the input following the closing quote. -/
def parseStrChars : Nat → List Char → Option (List Char × List Char)
  | 0, _ => none
  | _ + 1, [] => none
  | f + 1, c :: rest =>
    if c = '"' then some ([], rest)
    else if c = '\\' then
      match rest with
      | 'n' :: r => (parseStrChars f r).map fun p => ('\n' :: p.1, p.2)
      | 't' :: r => (parseStrChars f r).map fun p => ('\t' :: p.1, p.2)
      | 'r' :: r => (parseStrChars f r).map fun p => ('\r' :: p.1, p.2)
      | 'b' :: r => (parseStrChars f r).map fun p => (Char.ofNat 8 :: p.1, p.2)
      | 'f' :: r => (parseStrChars f r).map fun p => (Char.ofNat 12 :: p.1, p.2)
      | '"' :: r => (parseStrChars f r).map fun p => ('"' :: p.1, p.2)
      | '\\' :: r => (parseStrChars f r).map fun p => ('\\' :: p.1, p.2)
      | '/' :: r => (parseStrChars f r).map fun p => ('/' :: p.1, p.2)
      | 'u' :: h1 :: h2 :: h3 :: h4 :: r =>
        match hexVal h1, hexVal h2, hexVal h3, hexVal h4 with
        | some a, some b, some c', some d =>
          (parseStrChars f r).map fun p =>
            (Char.ofNat (((a * 16 + b) * 16 + c') * 16 + d) :: p.1, p.2)
        | _, _, _, _ => none
      | _ => none
    else (parseStrChars f rest).map fun p => (c :: p.1, p.2)

/-- A JSON numeral: optional minus sign, digits, optional fractional part.
The decoded value is returned as an exact decimal. -/
def parseNumLit (cs : List Char) : Option (Dec × List Char) :=
  let (neg, cs1) := match cs with
    | '-' :: r => (true, r)
    | _ => (false, cs)
  let ds := cs1.takeWhile isDigitChar
  let cs2 := cs1.drop ds.length
  if ds.isEmpty then none
  else
    match cs2 with
    | '.' :: cs3 =>
      let fs := cs3.takeWhile isDigitChar
      if fs.isEmpty then none
      else
        let m : Int := (parseDigits (ds ++ fs) : Int)
        some (⟨if neg then -m else m, fs.length⟩, cs3.drop fs.length)
    | _ =>
      let m : Int := (parseDigits ds : Int)
      some (⟨if neg then -m else m, 0⟩, cs2)

mutual

/-- A JSON value, preceded by optional whitespace. -/
def parseJsonVal : Nat → List Char → Option (Json × List Char)
  | 0, _ => none
  | f + 1, cs =>
    match cs.dropWhile isJsonWs with
    | [] => none
    | c :: rest =>
      if c = '{' then parseJsonObj f rest
      else if c = '[' then parseJsonArr f rest
      else if c = '"' then
        (parseStrChars (rest.length + 1) rest).map fun p => (.str (String.mk p.1), p.2)
      else if c = 't' then
        match rest with
        | 'r' :: 'u' :: 'e' :: r => some (.bool true, r)
        | _ => none
      else if c = 'f' then
        match rest with
        | 'a' :: 'l' :: 's' :: 'e' :: r => some (.bool false, r)
        | _ => none
      else if c = 'n' then
        match rest with
        | 'u' :: 'l' :: 'l' :: r => some (.null, r)
        | _ => none
      else (parseNumLit (c :: rest)).map fun p => (.num p.1, p.2)

/-- Members of a JSON object, after the opening brace. -/
def parseJsonObj : Nat → List Char → Option (Json × List Char)
  | 0, _ => none
  | f + 1, cs =>
    match cs.dropWhile isJsonWs with
    | '}' :: rest => some (.obj [], rest)
    | _ => parseJsonMembers f cs []

/-- Nonempty member list of a JSON object: `"key": value` pairs separated
by commas, terminated by a closing brace. -/
def parseJsonMembers : Nat → List Char → List (String × Json) → Option (Json × List Char)
  | 0, _, _ => none
  | f + 1, cs, acc =>
    match cs.dropWhile isJsonWs with
    | '"' :: rest =>
      match parseStrChars (rest.length + 1) rest with
      | none => none
      | some (key, afterKey) =>
        match afterKey.dropWhile isJsonWs with
        | ':' :: afterColon =>
          match parseJsonVal f afterColon with
          | none => none
          | some (v, afterVal) =>
            let acc' := acc ++ [(String.mk key, v)]
            match afterVal.dropWhile isJsonWs with
            | ',' :: more => parseJsonMembers f more acc'
            | '}' :: rest' => some (.obj acc', rest')
            | _ => none
        | _ => none
    | _ => none

/-- Elements of a JSON array, after the opening bracket. -/
def parseJsonArr : Nat → List Char → Option (Json × List Char)
  | 0, _ => none
  | f + 1, cs =>
    match cs.dropWhile isJsonWs with
    | ']' :: rest => some (.arr [], rest)
    | _ => parseJsonElems f cs []

/-- Nonempty element list of a JSON array: values separated by commas,
terminated by a closing bracket. -/
def parseJsonElems : Nat → List Char → List Json → Option (Json × List Char)
  | 0, _, _ => none
  | f + 1, cs, acc =>
    match parseJsonVal f cs with
    | none => none
    | some (v, afterVal) =>
      let acc' := acc ++ [v]
      match afterVal.dropWhile isJsonWs with
      | ',' :: more => parseJsonElems f more acc'
      | ']' :: rest' => some (.arr acc', rest')
      | _ => none

end

/-- Python's `json.loads`: parse one JSON document; trailing content other
than whitespace is an error. -/
def jsonLoads (s : String) : Option Json :=
  match parseJsonVal (s.data.length + 2) s.data with
  | some (v, rest) => if (rest.dropWhile isJsonWs).isEmpty then some v else none
  | none => none

/-! ## `_parse_validation_response` and its Python coercions -/

/-- Python `dict` built from a JSON object: for duplicate keys the last
occurrence wins, as in `json.loads`. -/
def Json.lookupField (fields : List (String × Json)) (key : String) : Option Json :=
  ((fields.reverse).find? fun kv => kv.1 = key).map (·.2)

/-- Python truthiness, for `bool(x)`. -/
def pyTruthy : Json → Bool
  | .null => false
  | .bool b => b
  | .num d => !(d.num = 0)
  | .str s => !s.data.isEmpty
  | .arr l => !l.isEmpty
  | .obj l => !l.isEmpty

/-- Python `float(x)` on a JSON-decoded value: numbers and booleans
convert, numeric strings parse, everything else raises `TypeError` /
`ValueError` (modelled as `none`). -/
def pyFloat : Json → Option Dec
  | .num d => some d
  | .bool b => some (if b then 1 else 0)
  | .str s =>
    match parseNumLit (pyStrip s.data) with
    | some (d, rest) => if rest.isEmpty then some d else none
    | none => none
  | _ => none

/-- Rendering of a non-string JSON value, used only to give the elements
of `list(x)` a uniform `String` carrier in the model; no claim depends on
the text chosen for non-string elements. -/
def jsonElemStr : Json → String
  | .null => "None"
  | .bool b => if b then "True" else "False"
  | .num _ => "<number>"
  | .str s => s
  | .arr _ => "<list>"
  | .obj _ => "<dict>"

/-- Python `list(x)` on a JSON-decoded value: lists enumerate their
elements, strings their characters, dicts their keys; other values raise
`TypeError` (modelled as `none`). -/
def pyList : Json → Option (List String)
  | .arr l => some (l.map jsonElemStr)
  | .str s => some (s.data.map fun c => String.mk [c])
  | .obj l => some (l.map (·.1))
  | _ => none

/-- Result of feature request validation (`ValidationResult` dataclass). -/
structure ValidationResult where
  is_complete : Bool
  confidence_score : Dec
  issues : List String
  suggestions : List String
  missing_elements : List String
deriving Repr, DecidableEq

/-- `_clean_json_response`: strip, drop a leading markdown fence
`"```json"`, drop a trailing fence `"```"`, strip again. -/
def cleanJsonResponse (response : String) : String :=
  let r1 := pyStrip response.data
  let r2 := if List.isPrefixOf ("```json" : String).data r1 then r1.drop 7 else r1
  let r3 := if List.isSuffixOf ("```" : String).data r2 then r2.take (r2.length - 3) else r2
  String.mk (pyStrip r3)

/-- Body of the `try` block of `_parse_validation_response`: `json.loads`
followed by the five coerced field reads; `none` when any step raises. -/
def tryParseValidation (cleaned : String) : Option ValidationResult :=
  match jsonLoads cleaned with
  | none => none
  | some (.obj fields) =>
    let isComplete := pyTruthy ((Json.lookupField fields "is_complete").getD (.bool false))
    match pyFloat ((Json.lookupField fields "confidence_score").getD (.num (0.5 : Dec))) with
    | none => none
    | some conf =>
      match pyList ((Json.lookupField fields "issues").getD (.arr [])) with
      | none => none
      | some issues =>
        match pyList ((Json.lookupField fields "suggestions").getD (.arr [])) with
        | none => none
        | some suggestions =>
          match pyList ((Json.lookupField fields "missing_elements").getD (.arr [])) with
          | none => none
          | some missing =>
            some ⟨isComplete, conf, issues, suggestions, missing⟩
  | some _ => none

/-- The `except` branch of `_parse_validation_response`. -/
def fallbackValidationResult : ValidationResult :=
  ⟨false, 0.3, ["Failed to parse validation response"],
   ["Please review feature request manually"], ["Unknown due to parsing error"]⟩

/-- `_parse_validation_response`: parse the cleaned LLM reply, falling
back to a fixed low-confidence result when anything raises. -/
def parseValidationResponse (response : String) : ValidationResult :=
  match tryParseValidation (cleanJsonResponse response) with
  | some v => v
  | none => fallbackValidationResult

/-! ## `_classify_relationship_with_llm` -/

/-- The valid relationship answers accepted from the LLM. -/
def validRelationships : List String :=
  ["duplicate", "supersedes", "builds_on", "fixes", "conflicts_with"]

/-- `_classify_relationship_with_llm`: ask the LLM (the call may raise,
modelled by `Except Unit String`); on success accept only a valid
relationship word, on failure fall back to the similarity heuristic. -/
def classifyRelationshipWithLLM (llmResponse : Except Unit String)
    (similarity_score : Dec) : Option String :=
  match llmResponse with
  | .ok response =>
    let relationship := String.mk (asciiLower (pyStrip response.data))
    if relationship ∈ validRelationships then some relationship else none
  | .error _ =>
    if (0.9 : Dec) ≤ similarity_score then some "duplicate"
    else if (0.8 : Dec) ≤ similarity_score then some "builds_on"
    else none

/-! ## The ledger database

Rows of the three tables created by `SCHEMA_SQL` in `src/core/database.py`.
The CHECK constraints, the `features` primary key and the foreign keys of
`feature_relations` and `feature_documents` are enforced by the insert
operations below, as SQLite enforces them with `PRAGMA foreign_keys = ON`.
Timestamps (`datetime.now().isoformat()`) are modelled as `Nat` ticks
supplied by the caller. -/

/-- Allowed values of `features.type`. -/
def validFeatureTypes : List String :=
  ["new_feature", "bug_fix", "refactor", "enhancement"]

/-- Allowed values of `features.status`. -/
def validStatuses : List String :=
  ["requested", "in_review", "awaiting_implementation", "awaiting_validation",
   "validated", "superseded"]

/-- Allowed values of `feature_relations.relation_type`. -/
def validRelationTypes : List String :=
  ["builds_on", "supersedes", "refactors", "fixes"]

/-- Allowed values of `feature_documents.document_type`. -/
def validDocumentTypes : List String :=
  ["feature_request", "technical_architecture_specification",
   "feature_implementation_plan"]

/-- A row of the `features` table. -/
structure FeatureRow where
  feature_id : String
  type : String
  status : String
  title : String
  description : String
  keywords : List String
  date_created : Nat
  date_implemented : Option Nat := none
  date_superseded : Option Nat := none
  commit_hash : Option String := none
  changed_files : Option (List String) := none
deriving Repr, DecidableEq

/-- A row of the `feature_relations` table. -/
structure RelationRow where
  feature_id : String
  relation_type : String
  target_id : String
deriving Repr, DecidableEq

/-- A row of the `feature_documents` table. -/
structure DocumentRow where
  feature_id : String
  document_type : String
  content : String
  created_at : Nat
  updated_at : Nat
deriving Repr, DecidableEq

/-- The ledger database: the three tables of `SCHEMA_SQL`. -/
structure Ledger where
  features : List FeatureRow
  feature_relations : List RelationRow
  feature_documents : List DocumentRow
deriving Repr, DecidableEq

/-- A freshly initialized ledger. -/
def emptyLedger : Ledger := ⟨[], [], []⟩

/-- `INSERT INTO features`: CHECK constraints on `type` and `status`, and
primary-key uniqueness of `feature_id`. -/
def insertFeatureRow (db : Ledger) (row : FeatureRow) : Except String Ledger :=
  if row.type ∉ validFeatureTypes then .error "CHECK constraint failed: type"
  else if row.status ∉ validStatuses then .error "CHECK constraint failed: status"
  else if db.features.any (fun f => f.feature_id = row.feature_id) then
    .error "UNIQUE constraint failed: features.feature_id"
  else .ok { db with features := db.features ++ [row] }

/-- `INSERT INTO feature_relations`: CHECK constraint on `relation_type`
and foreign keys on `feature_id` and `target_id`. -/
def insertRelationRow (db : Ledger) (row : RelationRow) : Except String Ledger :=
  if row.relation_type ∉ validRelationTypes then
    .error "CHECK constraint failed: relation_type"
  else if ¬ db.features.any (fun f => f.feature_id = row.feature_id) then
    .error "FOREIGN KEY constraint failed"
  else if ¬ db.features.any (fun f => f.feature_id = row.target_id) then
    .error "FOREIGN KEY constraint failed"
  else .ok { db with feature_relations := db.feature_relations ++ [row] }

/-- An initial relation supplied to `add_feature`: a dict with `type` and
`target_id` fields. -/
structure RelationSpec where
  type : String
  target_id : String
deriving Repr, DecidableEq

/-- The `feature_data` dict passed to `add_feature`; `none` models an
absent key, read through `feature_data.get(key, default)`. -/
structure FeatureData where
  type : Option String := none
  status : Option String := none
  title : Option String := none
  description : Option String := none
  keywords : Option (List String) := none
  relations : Option (List RelationSpec) := none
deriving Repr, DecidableEq

/-- Combiner of the scan for the row with the maximal cast numeric
suffix. -/
def pickMaxSuffix (initials : String) (acc : Option FeatureRow) (r : FeatureRow) :
    Option FeatureRow :=
  match acc with
  | none => some r
  | some b =>
    if castSuffix initials b.feature_id < castSuffix initials r.feature_id
    then some r else some b

/-- The `ORDER BY CAST(...) DESC LIMIT 1` row of the id-allocation query
in `add_feature`: a row whose cast numeric suffix is maximal among
`rows`. -/
def maxBySuffix (initials : String) (rows : List FeatureRow) : Option FeatureRow :=
  rows.foldl (pickMaxSuffix initials) none

/-- `ProjectLedgerManager.add_feature`: scan the maximal existing numeric
suffix for the project's id prefix, allocate the next id, insert the
feature row and any supplied relations, and commit; on any `sqlite3.Error`
the transaction is rolled back, leaving the ledger unchanged (the caller
keeps `db`). -/
def add_feature (initials : String) (db : Ledger) (feature_data : FeatureData)
    (now : Nat) : Except String (String × Ledger) := do
  let candidates := db.features.filter fun f => likeDashPercent initials f.feature_id
  let last_feature := maxBySuffix initials candidates
  let new_feature_num ←
    match last_feature with
    | some row => (pyIntSuffix row.feature_id).map (· + 1)
    | none => pure 1
  let feature_id := mkFeatureId initials new_feature_num
  let row : FeatureRow :=
    { feature_id
      type := feature_data.type.getD "new_feature"
      status := feature_data.status.getD "requested"
      title := feature_data.title.getD ""
      description := feature_data.description.getD ""
      keywords := feature_data.keywords.getD []
      date_created := now }
  match
    (feature_data.relations.getD []).foldlM
      (fun d (relation : RelationSpec) =>
        insertRelationRow d ⟨feature_id, relation.type, relation.target_id⟩)
      (← insertFeatureRow db row)
  with
  | .ok db2 => .ok (feature_id, db2)
  | .error e => .error ("Failed to add feature: " ++ e)

/-- `ProjectLedgerManager.update_feature_status`: set the status of the
matching row, optionally stamping `date_implemented` or `date_superseded`;
the returned `Bool` is `cursor.rowcount > 0`.  An invalid status violates
the CHECK constraint whenever a row matches. -/
def update_feature_status (db : Ledger) (feature_id status : String)
    (timestamp_field : Option String) (now : Nat) : Except String (Ledger × Bool) :=
  let affected := db.features.any fun f => f.feature_id = feature_id
  if affected ∧ status ∉ validStatuses then .error "CHECK constraint failed: status"
  else
    .ok
      ({ db with
          features := db.features.map fun f =>
            if f.feature_id = feature_id then
              if timestamp_field = some "date_implemented" then
                { f with status := status, date_implemented := some now }
              else if timestamp_field = some "date_superseded" then
                { f with status := status, date_superseded := some now }
              else { f with status := status }
            else f },
        affected)

/-- `ProjectLedgerManager.mark_feature_implemented`: stamp the row with
status `validated`, the implementation date, the commit hash and the
changed-files list (Python's `if changed_files` treats an empty list like
`None`). -/
def mark_feature_implemented (db : Ledger) (feature_id : String)
    (commit_hash : Option String) (changed_files : Option (List String))
    (now : Nat) : Ledger × Bool :=
  let affected := db.features.any fun f => f.feature_id = feature_id
  ({ db with
      features := db.features.map fun f =>
        if f.feature_id = feature_id then
          { f with
              status := "validated"
              date_implemented := some now
              commit_hash := commit_hash
              changed_files :=
                match changed_files with
                | some l => if l.isEmpty then none else some l
                | none => none }
        else f },
    affected)

/-- `ProjectLedgerManager.mark_feature_superseded`. -/
def mark_feature_superseded (db : Ledger) (feature_id : String) (now : Nat) :
    Except String (Ledger × Bool) :=
  update_feature_status db feature_id "superseded" (some "date_superseded") now

/-- `ProjectLedgerManager.add_feature_document`: update the existing
`(feature_id, document_type)` row in place, keeping `created_at`, or
insert a fresh row with `created_at = updated_at = now`.  The insert is
subject to the CHECK constraint on `document_type` and the foreign key on
`feature_id`. -/
def add_feature_document (db : Ledger) (feature_id document_type content : String)
    (now : Nat) : Except String (Ledger × Bool) :=
  let existing := db.feature_documents.any fun d =>
    d.feature_id = feature_id ∧ d.document_type = document_type
  if existing then
    .ok
      ({ db with
          feature_documents := db.feature_documents.map fun d =>
            if d.feature_id = feature_id ∧ d.document_type = document_type then
              { d with content := content, updated_at := now }
            else d },
        true)
  else if document_type ∉ validDocumentTypes then
    .error "CHECK constraint failed: document_type"
  else if ¬ db.features.any (fun f => f.feature_id = feature_id) then
    .error "FOREIGN KEY constraint failed"
  else
    .ok
      ({ db with
          feature_documents :=
            db.feature_documents ++ [⟨feature_id, document_type, content, now, now⟩] },
        true)

/-! ## The feature request workflow (`FeatureRequestAgent`)

The LangGraph graph of `_build_workflow` is embedded as a deterministic
step function on a node name plus the `FeatureRequestState` dict and the
ledger.  External collaborators — the validation LLM, the ChromaDB
semantic search, the per-candidate classification LLM, and the CLI's
human decision (which, per the comments in `_process_user_confirmation`
and the code of `_handle_user_confirmation_stage`, sets `user_approved`
and `relationship_confirmations` between the confirmation node and its
conditional edge) — are supplied by a `WorkflowEnv`.  An `Except.error`
from an oracle models the call raising. -/

/-- One entry of `similar_features`, as returned by
`SemanticSearchEngine.find_similar_features`. -/
structure SimilarFeature where
  feature_id : String
  title : String
  description : String
  similarity_score : Dec
deriving Repr, DecidableEq

/-- One entry of `potential_relationships`, as built by
`_classify_relationships_node`. -/
structure RelCandidate where
  feature_id : String
  title : String
  relationship_type : String
  confidence_score : Dec
  description : String
deriving Repr, DecidableEq

/-- The `FeatureRequestState` TypedDict (the constant context fields
`project_root`, `db_path`, `gdd_context` are carried by `WorkflowEnv`). -/
structure FRState where
  title : String
  description : String
  feature_type : String
  is_valid : Bool
  validation_issues : List String
  validation_suggestions : List String
  confidence_score : Dec
  similar_features : List SimilarFeature
  potential_relationships : List RelCandidate
  user_approved : Bool
  relationship_confirmations : List (String × String)
  feature_id : Option String
  stored_successfully : Bool
  current_stage : String
  retry_count : Nat
  max_retries : Nat
  error_message : Option String
deriving Repr, DecidableEq

/-- The `initial_state` built by `process_feature_request`. -/
def initialFRState (title description feature_type : String) : FRState :=
  { title := title
    description := description
    feature_type := feature_type
    is_valid := false
    validation_issues := []
    validation_suggestions := []
    confidence_score := 0
    similar_features := []
    potential_relationships := []
    user_approved := false
    relationship_confirmations := []
    feature_id := none
    stored_successfully := false
    current_stage := "validation"
    retry_count := 0
    max_retries := 3
    error_message := none }

/-- The workflow's external collaborators.  Oracle calls are indexed by
the current `retry_count`, which identifies the attempt. -/
structure WorkflowEnv where
  initials : String
  clock : Nat
  validateLLM : Nat → Except String String
  searchSimilar : Nat → Except String (List SimilarFeature)
  classifyLLM : String → String → Dec → Except Unit String
  userApproved : Nat → Bool
  userConfirmations : Nat → List (String × String)

/-- `_validate_request_node`: ask the LLM, parse its reply; a raised
exception is recorded in `error_message` with validity reset. -/
def validateRequestNode (env : WorkflowEnv) (s : FRState) : FRState :=
  let s := { s with current_stage := "validation" }
  match env.validateLLM s.retry_count with
  | .error e =>
    { s with
        error_message := some ("Validation failed: " ++ e)
        is_valid := false
        confidence_score := 0 }
  | .ok response =>
    let validation_result := parseValidationResponse response
    { s with
        is_valid := validation_result.is_complete
        confidence_score := validation_result.confidence_score
        validation_issues := validation_result.issues
        validation_suggestions := validation_result.suggestions }

/-- `_search_similar_node`: semantic search, degrading to an empty
candidate list when the search raises. -/
def searchSimilarNode (env : WorkflowEnv) (s : FRState) : FRState :=
  let s := { s with current_stage := "semantic_search" }
  match env.searchSimilar s.retry_count with
  | .ok similar_features => { s with similar_features := similar_features }
  | .error e =>
    { s with
        error_message := some ("Semantic search failed: " ++ e)
        similar_features := [] }

/-- `_classify_relationships_node`: classify each similar feature through
`_classify_relationship_with_llm`, keeping the candidates with a truthy
relationship type. -/
def classifyRelationshipsNode (env : WorkflowEnv) (s : FRState) : FRState :=
  let s := { s with current_stage := "relationship_classification" }
  let relationships :=
    s.similar_features.foldl
      (fun acc similar_feature =>
        match
          classifyRelationshipWithLLM
            (env.classifyLLM s.description similar_feature.description
              similar_feature.similarity_score)
            similar_feature.similarity_score
        with
        | some relationship_type =>
          acc ++
            [⟨similar_feature.feature_id, similar_feature.title, relationship_type,
              similar_feature.similarity_score, similar_feature.description⟩]
        | none => acc)
      []
  { s with potential_relationships := relationships }

/-- `_confirm_with_user_node`: only marks the stage; the interaction
itself happens outside the node. -/
def confirmWithUserNode (s : FRState) : FRState :=
  { s with current_stage := "user_confirmation" }

/-- The human approval gate: the CLI writes the user's decision into
`user_approved` and `relationship_confirmations` (see
`_handle_user_confirmation_stage` in `src/antigine/cli/commands/feature.py`
and the comments in `_process_user_confirmation`). -/
def applyHumanGate (env : WorkflowEnv) (s : FRState) : FRState :=
  { s with
      user_approved := env.userApproved s.retry_count
      relationship_confirmations := env.userConfirmations s.retry_count }

/-- The `INSERT INTO feature_relationships (...)` statement issued by
`_store_feature_node` for each confirmed relationship.  `SCHEMA_SQL`
creates only `features`, `feature_relations` and `feature_documents`, so
SQLite raises `OperationalError: no such table: feature_relationships`,
whatever the row values are. -/
def insertFeatureRelationship (_db : Ledger)
    (_feature_id _related_id _relationship_type : String) (_confidence : Dec)
    (_now : Nat) : Except String Ledger :=
  .error "no such table: feature_relationships"

/-- `_store_feature_node`: create the feature through
`ProjectLedgerManager.add_feature` (which commits its own transaction),
store the ChromaDB embedding (external to the ledger), then insert the
confirmed relationships on a second connection; any exception is caught
and recorded, leaving whatever was already committed in place. -/
def storeFeatureNode (env : WorkflowEnv) (s : FRState) (db : Ledger) :
    FRState × Ledger :=
  let s := { s with current_stage := "storage" }
  let feature_data : FeatureData :=
    { type := some s.feature_type
      title := some s.title
      description := some s.description
      keywords := some [] }
  match add_feature env.initials db feature_data env.clock with
  | .error e =>
    ({ s with error_message := some ("Storage failed: " ++ e),
              stored_successfully := false }, db)
  | .ok (feature_id, db1) =>
    if s.relationship_confirmations.isEmpty then
      ({ s with feature_id := some feature_id, stored_successfully := true }, db1)
    else
      match
        s.relationship_confirmations.foldlM
          (fun d kv =>
            insertFeatureRelationship d feature_id kv.1 kv.2 (0.9 : Dec) env.clock)
          db1
      with
      | .ok db2 =>
        ({ s with feature_id := some feature_id, stored_successfully := true }, db2)
      | .error e =>
        ({ s with error_message := some ("Storage failed: " ++ e),
                  stored_successfully := false }, db1)

/-- `_handle_retry_node`: bump the retry counter and clear the error. -/
def handleRetryNode (s : FRState) : FRState :=
  { s with retry_count := s.retry_count + 1, error_message := none }

/-- `_should_proceed_after_validation`. -/
def shouldProceedAfterValidation (s : FRState) : String :=
  match s.error_message with
  | some _ => if s.retry_count < s.max_retries then "retry" else "end"
  | none =>
    if s.is_valid ∧ (0.7 : Dec) ≤ s.confidence_score then "proceed"
    else if s.retry_count < s.max_retries then "retry"
    else "end"

/-- `_should_confirm_relationships`. -/
def shouldConfirmRelationships (s : FRState) : String :=
  if s.potential_relationships ≠ [] then
    if (s.potential_relationships.filter fun r =>
          decide (r.relationship_type ∈ ["duplicate", "conflicts_with"] ∧
            (0.8 : Dec) ≤ r.confidence_score)) ≠ [] then "confirm"
    else "store"
  else "store"

/-- `_process_user_confirmation`. -/
def processUserConfirmation (s : FRState) : String :=
  if s.user_approved then "approved"
  else if s.retry_count < s.max_retries then "retry"
  else "cancelled"

/-- `_should_retry`. -/
def shouldRetry (s : FRState) : String :=
  if s.max_retries ≤ s.retry_count then "end" else "retry"

/-- The node names of the graph built by `_build_workflow`, plus the
terminal `END`. -/
inductive Node where
  | validate
  | search
  | classify
  | confirm
  | store
  | retry
  | done
deriving Repr, DecidableEq

/-- One transition of the compiled graph: run the current node's function
and follow its (conditional) edge. -/
def stepWorkflow (env : WorkflowEnv) :
    Node → FRState → Ledger → Node × FRState × Ledger
  | .validate, s, db =>
    let s' := validateRequestNode env s
    let d := shouldProceedAfterValidation s'
    (if d = "proceed" then .search else if d = "retry" then .retry else .done, s', db)
  | .search, s, db => (.classify, searchSimilarNode env s, db)
  | .classify, s, db =>
    let s' := classifyRelationshipsNode env s
    (if shouldConfirmRelationships s' = "confirm" then .confirm else .store, s', db)
  | .confirm, s, db =>
    let s' := applyHumanGate env (confirmWithUserNode s)
    let d := processUserConfirmation s'
    (if d = "approved" then .store else if d = "retry" then .retry else .done, s', db)
  | .store, s, db =>
    let p := storeFeatureNode env s db
    (.done, p.1, p.2)
  | .retry, s, db =>
    let s' := handleRetryNode s
    (if shouldRetry s' = "retry" then .validate else .done, s', db)
  | .done, s, db => (.done, s, db)

/-- Run the graph for at most `fuel` transitions, stopping at `END`. -/
def runWorkflow (env : WorkflowEnv) :
    Nat → Node → FRState → Ledger → Node × FRState × Ledger
  | 0, n, s, db => (n, s, db)
  | fuel + 1, n, s, db =>
    if n = .done then (n, s, db)
    else
      let p := stepWorkflow env n s db
      runWorkflow env fuel p.1 p.2.1 p.2.2

/-- Rank of a node in the termination measure. -/
def nodeRank : Node → Nat
  | .done => 0
  | .store => 1
  | .retry => 2
  | .confirm => 3
  | .classify => 4
  | .search => 5
  | .validate => 6

/-- Termination measure of the workflow: every transition strictly
decreases it. -/
def workflowMeasure (n : Node) (s : FRState) : Nat :=
  (s.max_retries - s.retry_count) * 6 + nodeRank n

/-! ## Derived notions and concrete fixtures used by the verification -/

/-- The maximal existing numeric suffix for the project's id prefix
(`0` on an empty project), read off the allocation query's result row. -/
def maxSuffix (initials : String) (db : Ledger) : Nat :=
  match maxBySuffix initials (db.features.filter fun f => likeDashPercent initials f.feature_id) with
  | some r => castSuffix initials r.feature_id
  | none => 0

/-- Every feature of `db` whose id matches the project's `LIKE` pattern is
a generated id `mkFeatureId initials k`. -/
def WellFormedFor (initials : String) (db : Ledger) : Prop :=
  ∀ f ∈ db.features, likeDashPercent initials f.feature_id = true →
    ∃ k, f.feature_id = mkFeatureId initials k

/-- `n` sequential `add_feature` calls starting from a freshly initialized
ledger, collecting the allocated ids in call order (call `i` uses
`datas i` as its feature dict and tick `i` as its timestamp). -/
def addFeatureSeq (initials : String) (datas : Nat → FeatureData) : Nat → Ledger × List String
  | 0 => (emptyLedger, [])
  | n + 1 =>
    let p := addFeatureSeq initials datas n
    match add_feature initials p.1 (datas n) n with
    | .ok q => (q.2, p.2 ++ [q.1])
    | .error _ => (p.1, p.2)

/-- The forward status chain of the specification. -/
def statusChain : List String :=
  ["requested", "in_review", "awaiting_implementation", "awaiting_validation", "validated"]

/-- Invariant tying the retry counter to the graph position: the counter
never exceeds the bound, and the retry node is only ever entered below
the bound. -/
def RetryInv (n : Node) (s : FRState) : Prop :=
  s.retry_count ≤ s.max_retries ∧ (n = Node.retry → s.retry_count < s.max_retries)

/-- Does the run of `runWorkflow` with the same arguments ever execute the
storage node? -/
def runVisitsStore (env : WorkflowEnv) : Nat → Node → FRState → Ledger → Bool
  | 0, _, _, _ => false
  | fuel + 1, n, s, db =>
    if n = Node.done then false
    else if n = Node.store then true
    else
      let p := stepWorkflow env n s db
      runVisitsStore env fuel p.1 p.2.1 p.2.2

/-- A ledger holding one feature `TP-001` with status `requested`. -/
def dbOne : Ledger :=
  ⟨[{ feature_id := "TP-001", type := "new_feature", status := "requested",
      title := "Old", description := "old feature", keywords := [],
      date_created := 0 }], [], []⟩

/-- A ledger holding one feature `TP-001` with the terminal status
`validated`. -/
def dbValidatedOne : Ledger :=
  ⟨[{ feature_id := "TP-001", type := "new_feature", status := "validated",
      title := "Old", description := "old feature", keywords := [],
      date_created := 0 }], [], []⟩

/-- An environment whose validation oracle always answers with confidence
`0.65`: complete, but below the `0.7` gate. -/
def env65 : WorkflowEnv :=
  { initials := "TP", clock := 0
    validateLLM := fun _ => .ok "\x7b\"is_complete\": true, \"confidence_score\": 0.65\x7d"
    searchSimilar := fun _ => .ok []
    classifyLLM := fun _ _ _ => .error ()
    userApproved := fun _ => false
    userConfirmations := fun _ => [] }

/-- An environment producing a high-confidence duplicate candidate
(similarity `0.85`) whose user always rejects the confirmation. -/
def envReject : WorkflowEnv :=
  { initials := "TP", clock := 5
    validateLLM := fun _ => .ok "\x7b\"is_complete\": true, \"confidence_score\": 0.9\x7d"
    searchSimilar := fun _ => .ok [⟨"TP-001", "Old", "old feature", 0.85⟩]
    classifyLLM := fun _ _ _ => .ok "duplicate"
    userApproved := fun _ => false
    userConfirmations := fun _ => [] }

/-- An environment producing a `builds_on` candidate at similarity
`0.75`. -/
def envBuildsOn : WorkflowEnv :=
  { envReject with
    searchSimilar := fun _ => .ok [⟨"TP-001", "Old", "old feature", 0.75⟩]
    classifyLLM := fun _ _ _ => .ok "builds_on" }

/-- A workflow state about to enter the storage node with one confirmed
relationship. -/
def stateConf : FRState :=
  { initialFRState "New feature" "desc" "new_feature" with
      user_approved := true
      relationship_confirmations := [("TP-001", "duplicate")] }

/-- An environment whose validation oracle replies with text that is not
JSON. -/
def envNotJson : WorkflowEnv :=
  { env65 with validateLLM := fun _ => .ok "not json" }

/-- The feature row inserted by a successful `add_feature` call on a dict
without a `status` key. -/
def newFeatureRow (initials : String) (db : Ledger) (data : FeatureData) (now : Nat) :
    FeatureRow :=
  { feature_id := mkFeatureId initials (maxSuffix initials db + 1)
    type := data.type.getD "new_feature"
    status := "requested"
    title := data.title.getD ""
    description := data.description.getD ""
    keywords := data.keywords.getD []
    date_created := now }

/-! ## Lemmas: digit strings and feature ids -/


/-- Unfolding equation of `natDigits`. -/
theorem natDigitsAux_irrel :
    ∀ (n f1 f2 : Nat), n < f1 → n < f2 → natDigitsAux f1 n = natDigitsAux f2 n := by
  intro n
  induction n using Nat.strong_induction_on with
  | _ n ih =>
    intro f1 f2 h1 h2
    match f1, f2 with
    | g1 + 1, g2 + 1 =>
      by_cases h : n < 10
      · simp [natDigitsAux, h]
      · have hdiv : n / 10 < n := Nat.div_lt_self (by omega) (by omega)
        simp only [natDigitsAux, h, if_false]
        rw [ih (n / 10) hdiv g1 g2 (by omega) (by omega)]

/-- Unfolding equation of `natDigits`. -/
theorem natDigits_eq (n : Nat) :
    natDigits n =
      if n < 10 then [Char.ofNat (48 + n)]
      else natDigits (n / 10) ++ [Char.ofNat (48 + n % 10)] := by
  unfold natDigits
  by_cases h : n < 10
  · simp [natDigitsAux, h]
  · have hdiv : n / 10 < n := Nat.div_lt_self (by omega) (by omega)
    simp only [natDigitsAux, h, if_false]
    rw [natDigitsAux_irrel (n / 10) n (n / 10 + 1) (by omega) (by omega)]
    all_goals simp [natDigitsAux]

theorem toNat_digitChar {d : Nat} (h : d < 10) :
    (Char.ofNat (48 + d)).toNat = 48 + d := by
  interval_cases d <;> decide

theorem isDigit_digitChar {d : Nat} (h : d < 10) :
    isDigitChar (Char.ofNat (48 + d)) = true := by
  interval_cases d <;> decide

theorem digitVal_digitChar {d : Nat} (h : d < 10) :
    digitVal (Char.ofNat (48 + d)) = d := by
  interval_cases d <;> decide

theorem isDigitChar_ne_dash {c : Char} (h : isDigitChar c = true) : c ≠ '-' := by
  intro hc
  subst hc
  simp [isDigitChar] at h

theorem natDigits_ne_nil (n : Nat) : natDigits n ≠ [] := by
  rw [natDigits_eq]
  split <;> simp

theorem natDigits_all_digit (n : Nat) : ∀ c ∈ natDigits n, isDigitChar c = true := by
  induction n using Nat.strong_induction_on with
  | _ n ih =>
    rw [natDigits_eq]
    by_cases h : n < 10
    · simpa [h] using isDigit_digitChar h
    · simp only [h, if_false, List.mem_append, List.mem_singleton]
      rintro c (hc | rfl)
      · exact ih (n / 10) (Nat.div_lt_self (by omega) (by omega)) c hc
      · exact isDigit_digitChar (Nat.mod_lt _ (by omega))

theorem parseDigits_append_singleton (cs : List Char) (c : Char) :
    parseDigits (cs ++ [c]) = parseDigits cs * 10 + digitVal c := by
  simp [parseDigits, List.foldl_append]

theorem parseDigits_natDigits (n : Nat) : parseDigits (natDigits n) = n := by
  induction n using Nat.strong_induction_on with
  | _ n ih =>
    rw [natDigits_eq]
    by_cases h : n < 10
    · simp [h, parseDigits, digitVal_digitChar h]
    · simp only [h, if_false]
      rw [parseDigits_append_singleton, ih (n / 10) (Nat.div_lt_self (by omega) (by omega)),
        digitVal_digitChar (Nat.mod_lt _ (by omega))]
      omega

theorem parseDigits_cons_zero (cs : List Char) :
    parseDigits ('0' :: cs) = parseDigits cs := rfl

theorem parseDigits_replicate_zero (k : Nat) (cs : List Char) :
    parseDigits (List.replicate k '0' ++ cs) = parseDigits cs := by
  induction k with
  | zero => rfl
  | succ k ih =>
    rw [List.replicate_succ, List.cons_append, parseDigits_cons_zero, ih]

theorem parseDigits_pad3 (n : Nat) : parseDigits (pad3 n) = n := by
  rw [pad3, parseDigits_replicate_zero, parseDigits_natDigits]

theorem pad3_ne_nil (n : Nat) : pad3 n ≠ [] := by
  rw [pad3]
  simp [natDigits_ne_nil n]

theorem pad3_all_digit (n : Nat) : ∀ c ∈ pad3 n, isDigitChar c = true := by
  rw [pad3]
  intro c hc
  rcases List.mem_append.1 hc with h | h
  · rw [List.eq_of_mem_replicate h]; decide
  · exact natDigits_all_digit n c h

theorem pad3_no_dash (n : Nat) : ∀ c ∈ pad3 n, c ≠ '-' :=
  fun c hc => isDigitChar_ne_dash (pad3_all_digit n c hc)

theorem mkFeatureId_data (initials : String) (n : Nat) :
    (mkFeatureId initials n).data = (initials.data ++ ['-']) ++ pad3 n := by
  simp [mkFeatureId, String.data_append]

theorem splitDashSecond_mkFeatureId (initials : String) (n : Nat)
    (hdash : ∀ c ∈ initials.data, c ≠ '-') :
    splitDashSecond (mkFeatureId initials n) = pad3 n := by
  unfold splitDashSecond
  rw [mkFeatureId_data, List.append_assoc, List.singleton_append,
    List.dropWhile_append_of_pos (fun c hc => by simpa using hdash c hc),
    List.dropWhile_cons]
  have h1 : (decide ¬('-' = '-') : Bool) = false := by decide
  simp only [h1, Bool.false_eq_true, if_false, List.drop_succ_cons, List.drop_zero]
  exact List.takeWhile_eq_self_iff.2 fun c hc => by simpa using pad3_no_dash n c hc

theorem pyIntSuffix_mkFeatureId (initials : String) (n : Nat)
    (hdash : ∀ c ∈ initials.data, c ≠ '-') :
    pyIntSuffix (mkFeatureId initials n) = .ok n := by
  unfold pyIntSuffix
  rw [splitDashSecond_mkFeatureId initials n hdash]
  have hcond : (decide (pad3 n ≠ []) && (pad3 n).all isDigitChar) = true := by
    rw [List.all_eq_true.2 (pad3_all_digit n), Bool.and_true, decide_eq_true_eq]
    exact pad3_ne_nil n
  show (if (decide (pad3 n ≠ []) && (pad3 n).all isDigitChar) = true
        then Except.ok (parseDigits (pad3 n))
        else Except.error "invalid feature id suffix") = Except.ok n
  rw [hcond, if_pos rfl, parseDigits_pad3]

theorem castSuffix_mkFeatureId (initials : String) (n : Nat) :
    castSuffix initials (mkFeatureId initials n) = n := by
  unfold castSuffix
  rw [mkFeatureId_data]
  have hlen : initials.length + 1 = (initials.data ++ ['-']).length := by
    rw [List.length_append]
    rfl
  rw [hlen, List.drop_left, List.takeWhile_eq_self_iff.2 (pad3_all_digit n),
    parseDigits_pad3]

theorem likeDashPercent_mkFeatureId (initials : String) (n : Nat) :
    likeDashPercent initials (mkFeatureId initials n) = true := by
  unfold likeDashPercent
  rw [mkFeatureId_data]
  have h : (initials ++ "-").data = initials.data ++ ['-'] := by
    rw [String.data_append]
  rw [h]
  exact List.isPrefixOf_iff_prefix.2 (List.prefix_append _ _)

theorem mkFeatureId_injective (initials : String) {a b : Nat}
    (h : mkFeatureId initials a = mkFeatureId initials b) : a = b := by
  have := congrArg (castSuffix initials) h
  rwa [castSuffix_mkFeatureId, castSuffix_mkFeatureId] at this

/-! ## Lemmas: the id allocation of `add_feature` -/

theorem foldl_pickMaxSuffix_some (initials : String) :
    ∀ (xs : List FeatureRow) (b : FeatureRow),
      ∃ r, xs.foldl (pickMaxSuffix initials) (some b) = some r ∧
        (r = b ∨ r ∈ xs) ∧
        castSuffix initials b.feature_id ≤ castSuffix initials r.feature_id ∧
        ∀ x ∈ xs, castSuffix initials x.feature_id ≤ castSuffix initials r.feature_id := by
  intro xs
  induction xs with
  | nil => exact fun b => ⟨b, rfl, Or.inl rfl, le_refl _, by simp⟩
  | cons y ys ih =>
    intro b
    rw [List.foldl_cons]
    by_cases h : castSuffix initials b.feature_id < castSuffix initials y.feature_id
    · have hp : pickMaxSuffix initials (some b) y = some y := by simp [pickMaxSuffix, h]
      rw [hp]
      obtain ⟨r, h1, h2, h3, h4⟩ := ih y
      refine ⟨r, h1, ?_, le_trans (le_of_lt h) h3, ?_⟩
      · rcases h2 with rfl | h2
        · exact Or.inr (by simp)
        · exact Or.inr (by simp [h2])
      · intro x hx
        rcases List.mem_cons.1 hx with rfl | hx
        · exact h3
        · exact h4 x hx
    · have hp : pickMaxSuffix initials (some b) y = some b := by simp [pickMaxSuffix, h]
      rw [hp]
      obtain ⟨r, h1, h2, h3, h4⟩ := ih b
      refine ⟨r, h1, ?_, h3, ?_⟩
      · rcases h2 with rfl | h2
        · exact Or.inl rfl
        · exact Or.inr (by simp [h2])
      · intro x hx
        rcases List.mem_cons.1 hx with rfl | hx
        · exact le_trans (Nat.le_of_not_lt h) h3
        · exact h4 x hx

theorem maxBySuffix_spec (initials : String) (rows : List FeatureRow) (hne : rows ≠ []) :
    ∃ r, maxBySuffix initials rows = some r ∧ r ∈ rows ∧
      ∀ x ∈ rows, castSuffix initials x.feature_id ≤ castSuffix initials r.feature_id := by
  match rows, hne with
  | y :: ys, _ =>
    unfold maxBySuffix
    rw [List.foldl_cons]
    have hp : pickMaxSuffix initials none y = some y := rfl
    rw [hp]
    obtain ⟨r, h1, h2, h3, h4⟩ := foldl_pickMaxSuffix_some initials ys y
    refine ⟨r, h1, ?_, ?_⟩
    · rcases h2 with rfl | h2
      · simp
      · simp [h2]
    · intro x hx
      rcases List.mem_cons.1 hx with rfl | hx
      · exact h3
      · exact h4 x hx

theorem maxSuffix_is_max (initials : String) (db : Ledger) :
    ∀ f ∈ db.features, likeDashPercent initials f.feature_id = true →
      castSuffix initials f.feature_id ≤ maxSuffix initials db := by
  intro f hf hlike
  have hmem : f ∈ db.features.filter fun g => likeDashPercent initials g.feature_id :=
    List.mem_filter.2 ⟨hf, hlike⟩
  have hne : db.features.filter (fun g => likeDashPercent initials g.feature_id) ≠ [] :=
    List.ne_nil_of_mem hmem
  obtain ⟨r, h1, _, h3⟩ := maxBySuffix_spec initials _ hne
  unfold maxSuffix
  rw [h1]
  exact h3 f hmem

theorem insertFeatureRow_ok (db : Ledger) (row : FeatureRow)
    (htype : row.type ∈ validFeatureTypes)
    (hstatus : row.status ∈ validStatuses)
    (hfresh : (db.features.any fun f => f.feature_id = row.feature_id) = false) :
    insertFeatureRow db row = .ok { db with features := db.features ++ [row] } := by
  unfold insertFeatureRow
  rw [if_neg, if_neg, if_neg]
  · intro h
    rw [Bool.eq_false_iff] at hfresh
    exact hfresh h
  · simpa using hstatus
  · simpa using htype

theorem add_feature_ok (initials : String) (db : Ledger) (data : FeatureData) (now : Nat)
    (hdash : ∀ c ∈ initials.data, c ≠ '-')
    (hwf : WellFormedFor initials db)
    (hstatus : data.status = none)
    (htype : data.type.getD "new_feature" ∈ validFeatureTypes)
    (hrel : data.relations = none) :
    add_feature initials db data now =
      .ok (mkFeatureId initials (maxSuffix initials db + 1),
           { db with features := db.features ++ [newFeatureRow initials db data now] }) := by
  have hfresh :
      (db.features.any fun f =>
        f.feature_id = mkFeatureId initials (maxSuffix initials db + 1)) = false := by
    rw [List.any_eq_false]
    intro f hf
    simp only [decide_eq_true_eq]
    intro hid
    have hlike : likeDashPercent initials f.feature_id = true := by
      rw [hid]; exact likeDashPercent_mkFeatureId initials _
    have hle := maxSuffix_is_max initials db f hf hlike
    rw [hid, castSuffix_mkFeatureId] at hle
    omega
  unfold add_feature
  dsimp only
  unfold newFeatureRow
  by_cases hne : db.features.filter (fun f => likeDashPercent initials f.feature_id) = []
  · have hmax0 :
        maxBySuffix initials
          (db.features.filter fun f => likeDashPercent initials f.feature_id) = none := by
      rw [hne]; rfl
    have hms : maxSuffix initials db = 0 := by unfold maxSuffix; rw [hmax0]
    rw [hmax0, hms]
    dsimp only [Bind.bind, Except.bind, pure, Except.pure]
    simp only [hstatus, hrel, Option.getD_none]
    rw [insertFeatureRow_ok db _ ?ht1 ?hs1 ?hf1]
    · dsimp only [List.foldlM, pure, Except.pure]
    case ht1 => simpa using htype
    case hs1 => exact (by decide : "requested" ∈ validStatuses)
    case hf1 => simpa [hms] using hfresh
  · obtain ⟨r, h1, h2, _⟩ := maxBySuffix_spec initials _ hne
    obtain ⟨hrf, hrlike⟩ := List.mem_filter.1 h2
    obtain ⟨k, hk⟩ := hwf r hrf hrlike
    have hms : maxSuffix initials db = k := by
      unfold maxSuffix
      rw [h1]
      show castSuffix initials r.feature_id = k
      rw [hk, castSuffix_mkFeatureId]
    rw [h1, hms]
    simp only [hk, pyIntSuffix_mkFeatureId initials k hdash, Except.map, Bind.bind, Except.bind]
    simp only [hstatus, hrel, Option.getD_none]
    rw [insertFeatureRow_ok db _ ?ht2 ?hs2 ?hf2]
    · dsimp only [List.foldlM, pure, Except.pure]
    case ht2 => simpa using htype
    case hs2 => exact (by decide : "requested" ∈ validStatuses)
    case hf2 => simpa [hms] using hfresh

theorem seq_wf (initials : String) (N : Nat) (db : Ledger)
    (hinv : db.features.map (fun f => f.feature_id)
      = (List.range N).map (fun i => mkFeatureId initials (i + 1))) :
    WellFormedFor initials db := by
  intro f hf _
  have hm : f.feature_id ∈ db.features.map (fun f => f.feature_id) :=
    List.mem_map_of_mem _ hf
  rw [hinv] at hm
  obtain ⟨i, _, heq⟩ := List.mem_map.1 hm
  exact ⟨i + 1, heq.symm⟩

theorem seq_maxSuffix (initials : String) (N : Nat) (db : Ledger)
    (hinv : db.features.map (fun f => f.feature_id)
      = (List.range N).map (fun i => mkFeatureId initials (i + 1))) :
    maxSuffix initials db = N := by
  have hall : ∀ f ∈ db.features, likeDashPercent initials f.feature_id = true := by
    intro f hf
    have hm : f.feature_id ∈ db.features.map (fun f => f.feature_id) :=
      List.mem_map_of_mem _ hf
    rw [hinv] at hm
    obtain ⟨i, _, heq⟩ := List.mem_map.1 hm
    rw [← heq]
    exact likeDashPercent_mkFeatureId initials (i + 1)
  have hfilter :
      db.features.filter (fun f => likeDashPercent initials f.feature_id) = db.features :=
    List.filter_eq_self.2 hall
  cases N with
  | zero =>
    have hnilmap : db.features.map (fun f => f.feature_id) = [] := by rw [hinv]; rfl
    have hnil : db.features = [] := List.map_eq_nil_iff.1 hnilmap
    unfold maxSuffix
    rw [hfilter, hnil]
    rfl
  | succ n =>
    have hmem : mkFeatureId initials (n + 1) ∈ db.features.map (fun f => f.feature_id) := by
      rw [hinv]
      exact List.mem_map.2 ⟨n, by simp, rfl⟩
    obtain ⟨fN, hfN, hfNid⟩ := List.mem_map.1 hmem
    have hne : db.features.filter (fun f => likeDashPercent initials f.feature_id) ≠ [] := by
      rw [hfilter]
      exact List.ne_nil_of_mem hfN
    obtain ⟨r, h1, h2, h3⟩ := maxBySuffix_spec initials _ hne
    unfold maxSuffix
    rw [h1]
    show castSuffix initials r.feature_id = n + 1
    rw [hfilter] at h2 h3
    have hm : r.feature_id ∈ db.features.map (fun f => f.feature_id) :=
      List.mem_map_of_mem _ h2
    rw [hinv] at hm
    obtain ⟨i, hiN, heq⟩ := List.mem_map.1 hm
    have hiN' : i < n + 1 := List.mem_range.1 hiN
    have hcr : castSuffix initials r.feature_id = i + 1 := by
      rw [← heq, castSuffix_mkFeatureId]
    have hlow := h3 fN hfN
    rw [hfNid, castSuffix_mkFeatureId] at hlow
    omega

theorem addFeatureSeq_spec (initials : String) (datas : Nat → FeatureData)
    (hdash : ∀ c ∈ initials.data, c ≠ '-')
    (hst : ∀ i, (datas i).status = none)
    (hty : ∀ i, (datas i).type.getD "new_feature" ∈ validFeatureTypes)
    (hre : ∀ i, (datas i).relations = none) :
    ∀ N, (addFeatureSeq initials datas N).1.features.map (fun f => f.feature_id)
            = (List.range N).map (fun i => mkFeatureId initials (i + 1))
      ∧ (addFeatureSeq initials datas N).2
            = (List.range N).map (fun i => mkFeatureId initials (i + 1)) := by
  intro N
  induction N with
  | zero => exact ⟨rfl, rfl⟩
  | succ n ih =>
    obtain ⟨hinv, hids⟩ := ih
    have hwf := seq_wf initials n _ hinv
    have hms := seq_maxSuffix initials n _ hinv
    have hok := add_feature_ok initials (addFeatureSeq initials datas n).1 (datas n) n
      hdash hwf (hst n) (hty n) (hre n)
    simp only [addFeatureSeq]
    rw [hok]
    constructor
    · dsimp only
      rw [List.map_append, hinv, List.range_succ, List.map_append]
      simp only [newFeatureRow, hms]
      rfl
    · dsimp only
      rw [hids, List.range_succ, List.map_append]
      rw [hms]
      rfl

/-! ## Lemmas: the workflow graph -/

theorem validateRequestNode_counters (env : WorkflowEnv) (s : FRState) :
    (validateRequestNode env s).retry_count = s.retry_count ∧
    (validateRequestNode env s).max_retries = s.max_retries := by
  unfold validateRequestNode
  dsimp only
  split <;> simp

theorem searchSimilarNode_counters (env : WorkflowEnv) (s : FRState) :
    (searchSimilarNode env s).retry_count = s.retry_count ∧
    (searchSimilarNode env s).max_retries = s.max_retries := by
  unfold searchSimilarNode
  dsimp only
  split <;> simp

theorem classifyRelationshipsNode_counters (env : WorkflowEnv) (s : FRState) :
    (classifyRelationshipsNode env s).retry_count = s.retry_count ∧
    (classifyRelationshipsNode env s).max_retries = s.max_retries := by
  unfold classifyRelationshipsNode
  simp

theorem confirmGate_counters (env : WorkflowEnv) (s : FRState) :
    (applyHumanGate env (confirmWithUserNode s)).retry_count = s.retry_count ∧
    (applyHumanGate env (confirmWithUserNode s)).max_retries = s.max_retries := by
  unfold applyHumanGate confirmWithUserNode
  simp

theorem storeFeatureNode_counters (env : WorkflowEnv) (s : FRState) (db : Ledger) :
    (storeFeatureNode env s db).1.retry_count = s.retry_count ∧
    (storeFeatureNode env s db).1.max_retries = s.max_retries := by
  unfold storeFeatureNode
  dsimp only
  split
  · simp
  · split
    · simp
    · split <;> simp

theorem handleRetryNode_counters (s : FRState) :
    (handleRetryNode s).retry_count = s.retry_count + 1 ∧
    (handleRetryNode s).max_retries = s.max_retries :=
  ⟨rfl, rfl⟩

theorem shouldProceed_retry_lt (s : FRState)
    (h : shouldProceedAfterValidation s = "retry") :
    s.retry_count < s.max_retries := by
  unfold shouldProceedAfterValidation at h
  split at h
  · split_ifs at h with h1
    · exact h1
    · simp at h
  · split_ifs at h with h1 h2
    · simp at h
    · exact h2
    · simp at h

theorem processUser_retry_lt (s : FRState)
    (h : processUserConfirmation s = "retry") :
    s.retry_count < s.max_retries := by
  unfold processUserConfirmation at h
  split_ifs at h with h1 h2
  · simp at h
  · exact h2
  · simp at h

theorem stepWorkflow_measure (env : WorkflowEnv) (n : Node) (s : FRState) (db : Ledger)
    (hn : n ≠ Node.done) :
    workflowMeasure (stepWorkflow env n s db).1 (stepWorkflow env n s db).2.1 <
      workflowMeasure n s := by
  cases n with
  | validate =>
    obtain ⟨h1, h2⟩ := validateRequestNode_counters env s
    unfold stepWorkflow
    dsimp only
    split_ifs <;> simp only [workflowMeasure, nodeRank, h1, h2] <;> omega
  | search =>
    obtain ⟨h1, h2⟩ := searchSimilarNode_counters env s
    simp only [stepWorkflow, workflowMeasure, nodeRank, h1, h2]
    omega
  | classify =>
    obtain ⟨h1, h2⟩ := classifyRelationshipsNode_counters env s
    unfold stepWorkflow
    dsimp only
    split_ifs <;> simp only [workflowMeasure, nodeRank, h1, h2] <;> omega
  | confirm =>
    obtain ⟨h1, h2⟩ := confirmGate_counters env s
    unfold stepWorkflow
    dsimp only
    split_ifs <;> simp only [workflowMeasure, nodeRank, h1, h2] <;> omega
  | store =>
    obtain ⟨h1, h2⟩ := storeFeatureNode_counters env s db
    simp only [stepWorkflow, workflowMeasure, nodeRank, h1, h2]
    omega
  | retry =>
    obtain ⟨h1, h2⟩ := handleRetryNode_counters s
    unfold stepWorkflow shouldRetry
    dsimp only
    rw [h1, h2]
    split_ifs with ha hb hb <;>
      simp only [workflowMeasure, nodeRank, h1, h2] <;>
      first
        | omega
        | (exfalso; simp_all)
  | done => exact absurd rfl hn

theorem stepWorkflow_inv (env : WorkflowEnv) (n : Node) (s : FRState) (db : Ledger)
    (h : RetryInv n s) :
    RetryInv (stepWorkflow env n s db).1 (stepWorkflow env n s db).2.1 := by
  obtain ⟨hle, hretry⟩ := h
  cases n with
  | validate =>
    obtain ⟨h1, h2⟩ := validateRequestNode_counters env s
    unfold stepWorkflow
    dsimp only
    refine ⟨by omega, ?_⟩
    intro hr
    rw [h1, h2]
    by_cases hb : shouldProceedAfterValidation (validateRequestNode env s) = "retry"
    · have hlt := shouldProceed_retry_lt _ hb
      rw [h1, h2] at hlt
      exact hlt
    · by_cases ha : shouldProceedAfterValidation (validateRequestNode env s) = "proceed"
      · rw [if_pos ha] at hr
        exact absurd hr (by simp)
      · rw [if_neg ha, if_neg hb] at hr
        exact absurd hr (by simp)
  | search =>
    obtain ⟨h1, h2⟩ := searchSimilarNode_counters env s
    exact ⟨by unfold stepWorkflow; dsimp only; omega, fun hr => by simp [stepWorkflow] at hr⟩
  | classify =>
    obtain ⟨h1, h2⟩ := classifyRelationshipsNode_counters env s
    refine ⟨by unfold stepWorkflow; dsimp only; omega, ?_⟩
    intro hr
    unfold stepWorkflow at hr
    dsimp only at hr
    split_ifs at hr
  | confirm =>
    obtain ⟨h1, h2⟩ := confirmGate_counters env s
    unfold stepWorkflow
    dsimp only
    refine ⟨by omega, ?_⟩
    intro hr
    rw [h1, h2]
    by_cases hb : processUserConfirmation (applyHumanGate env (confirmWithUserNode s)) = "retry"
    · have hlt := processUser_retry_lt _ hb
      rw [h1, h2] at hlt
      exact hlt
    · by_cases ha : processUserConfirmation (applyHumanGate env (confirmWithUserNode s)) = "approved"
      · rw [if_pos ha] at hr
        exact absurd hr (by simp)
      · rw [if_neg ha, if_neg hb] at hr
        exact absurd hr (by simp)
  | store =>
    obtain ⟨h1, h2⟩ := storeFeatureNode_counters env s db
    exact ⟨by unfold stepWorkflow; dsimp only; omega, fun hr => by simp [stepWorkflow] at hr⟩
  | retry =>
    obtain ⟨h1, h2⟩ := handleRetryNode_counters s
    have hlt := hretry rfl
    unfold stepWorkflow
    dsimp only
    refine ⟨by omega, ?_⟩
    intro hr
    split_ifs at hr
  | done =>
    exact ⟨hle, fun hr => by simp [stepWorkflow] at hr⟩

theorem runWorkflow_inv (env : WorkflowEnv) :
    ∀ (fuel : Nat) (n : Node) (s : FRState) (db : Ledger), RetryInv n s →
      RetryInv (runWorkflow env fuel n s db).1 (runWorkflow env fuel n s db).2.1 := by
  intro fuel
  induction fuel with
  | zero => intro n s db h; exact h
  | succ fuel ih =>
    intro n s db h
    unfold runWorkflow
    by_cases hd : n = Node.done
    · rw [if_pos hd]; exact h
    · rw [if_neg hd]
      exact ih _ _ _ (stepWorkflow_inv env n s db h)

theorem runWorkflow_done (env : WorkflowEnv) :
    ∀ (fuel : Nat) (n : Node) (s : FRState) (db : Ledger),
      workflowMeasure n s < fuel → (runWorkflow env fuel n s db).1 = Node.done := by
  intro fuel
  induction fuel with
  | zero => intro n s db h; omega
  | succ fuel ih =>
    intro n s db h
    unfold runWorkflow
    by_cases hd : n = Node.done
    · rw [if_pos hd]; exact hd
    · rw [if_neg hd]
      refine ih _ _ _ ?_
      have := stepWorkflow_measure env n s db hd
      omega

theorem stepWorkflow_frame (env : WorkflowEnv) (n : Node) (s : FRState) (db : Ledger)
    (hn : n ≠ Node.store) :
    (stepWorkflow env n s db).2.2 = db := by
  cases n <;> first | rfl | exact absurd rfl hn

theorem runWorkflow_frame (env : WorkflowEnv) :
    ∀ (fuel : Nat) (n : Node) (s : FRState) (db : Ledger),
      runVisitsStore env fuel n s db = false →
      (runWorkflow env fuel n s db).2.2 = db := by
  intro fuel
  induction fuel with
  | zero => intro n s db _; rfl
  | succ fuel ih =>
    intro n s db h
    unfold runWorkflow
    unfold runVisitsStore at h
    by_cases hd : n = Node.done
    · rw [if_pos hd]
    · rw [if_neg hd]
      rw [if_neg hd] at h
      by_cases hs : n = Node.store
      · rw [if_pos hs] at h
        simp at h
      · rw [if_neg hs] at h
        rw [ih _ _ _ h, stepWorkflow_frame env n s db hs]

/-! ## The claims -/

theorem Dec.not_le_of_lt {a b : Dec} (h : a < b) : ¬ b ≤ a := by
  intro hle
  have h' : a.num * 10 ^ b.exp < b.num * 10 ^ a.exp := h
  have hle' : b.num * 10 ^ a.exp ≤ a.num * 10 ^ b.exp := hle
  omega

theorem Dec.lt_of_lt_of_le' {a b c : Dec} (h1 : a < b) (h2 : b ≤ c) : a < c := by
  have h1' : a.num * 10 ^ b.exp < b.num * 10 ^ a.exp := h1
  have h2' : b.num * 10 ^ c.exp ≤ c.num * 10 ^ b.exp := h2
  show a.num * 10 ^ c.exp < c.num * 10 ^ a.exp
  have ha : (0 : Int) < 10 ^ a.exp := pow_pos (by norm_num) _
  have hb : (0 : Int) < 10 ^ b.exp := pow_pos (by norm_num) _
  have hc : (0 : Int) < 10 ^ c.exp := pow_pos (by norm_num) _
  have key : (a.num * 10 ^ c.exp) * 10 ^ b.exp < (c.num * 10 ^ a.exp) * 10 ^ b.exp := by
    nlinarith [mul_lt_mul_of_pos_right h1' hc, mul_le_mul_of_nonneg_right h2' (le_of_lt ha)]
  exact lt_of_mul_lt_mul_right key (le_of_lt hb)

theorem shouldProceed_of_error (s : FRState) (e : String)
    (h : s.error_message = some e) :
    shouldProceedAfterValidation s =
      if s.retry_count < s.max_retries then "retry" else "end" := by
  unfold shouldProceedAfterValidation
  rw [h]

theorem shouldProceed_of_no_error (s : FRState) (h : s.error_message = none) :
    shouldProceedAfterValidation s =
      if s.is_valid ∧ (0.7 : Dec) ≤ s.confidence_score then "proceed"
      else if s.retry_count < s.max_retries then "retry" else "end" := by
  unfold shouldProceedAfterValidation
  rw [h]

/-- C5: after `CLASSIFY_RELATIONSHIPS`, the workflow enters
`CONFIRM_WITH_USER` exactly when some candidate has relationship type
`duplicate` or `conflicts_with` at confidence at least `0.8`, and goes to
`STORE` otherwise; a `duplicate` candidate at `0.85` forces the
confirmation gate while a `builds_on` candidate at `0.75` does not. -/
theorem claim_C5_confirm_gate :
    (∀ s : FRState,
        (shouldConfirmRelationships s = "confirm" ↔
          ∃ r ∈ s.potential_relationships,
            r.relationship_type ∈ ["duplicate", "conflicts_with"] ∧
              (0.8 : Dec) ≤ r.confidence_score)
        ∧ (shouldConfirmRelationships s = "confirm" ∨
            shouldConfirmRelationships s = "store"))
    ∧ (∀ (env : WorkflowEnv) (s : FRState) (db : Ledger),
        (stepWorkflow env Node.classify s db).1 = Node.confirm ↔
          shouldConfirmRelationships (classifyRelationshipsNode env s) = "confirm")
    ∧ (stepWorkflow envReject Node.classify
        { initialFRState "t" "d" "new_feature" with
            similar_features := [⟨"TP-001", "Old", "old feature", 0.85⟩] } dbOne).1
        = Node.confirm
    ∧ (stepWorkflow envBuildsOn Node.classify
        { initialFRState "t" "d" "new_feature" with
            similar_features := [⟨"TP-001", "Old", "old feature", 0.75⟩] } dbOne).1
        = Node.store := by
  refine ⟨?_, ?_, by decide, by decide⟩
  · intro s
    constructor
    · unfold shouldConfirmRelationships
      by_cases h0 : s.potential_relationships ≠ []
      · rw [if_pos h0]
        by_cases h1 : (s.potential_relationships.filter fun r =>
            decide (r.relationship_type ∈ ["duplicate", "conflicts_with"] ∧
              (0.8 : Dec) ≤ r.confidence_score)) ≠ []
        · rw [if_pos h1]
          constructor
          · intro _
            obtain ⟨r, hr⟩ := List.exists_mem_of_ne_nil _ h1
            have hm := List.mem_filter.1 hr
            exact ⟨r, hm.1, by simpa using hm.2⟩
          · intro _
            rfl
        · rw [if_neg h1]
          rw [not_not] at h1
          constructor
          · intro h
            simp at h
          · rintro ⟨r, hrm, hrc⟩
            exfalso
            have hmem : r ∈ s.potential_relationships.filter fun r =>
                decide (r.relationship_type ∈ ["duplicate", "conflicts_with"] ∧
                  (0.8 : Dec) ≤ r.confidence_score) :=
              List.mem_filter.2 ⟨hrm, by simpa using hrc⟩
            rw [h1] at hmem
            simp at hmem
      · rw [if_neg h0]
        rw [not_not] at h0
        constructor
        · intro h
          simp at h
        · rintro ⟨r, hrm, _⟩
          rw [h0] at hrm
          simp at hrm
    · unfold shouldConfirmRelationships
      split_ifs <;> simp
  · intro env s db
    unfold stepWorkflow
    dsimp only
    constructor
    · intro h
      by_cases hc : shouldConfirmRelationships (classifyRelationshipsNode env s) = "confirm"
      · exact hc
      · rw [if_neg hc] at h
        exact absurd h (by simp)
    · intro hc
      rw [if_pos hc]

/-- C6: when the classification LLM call raises, the engine classifies a
candidate deterministically from the similarity score alone: at least
`0.9` yields `duplicate`, at least `0.8` but below `0.9` yields
`builds_on`, and below `0.8` yields no relationship. -/
theorem claim_C6_fallback :
    ∀ sim : Dec, (0 : Dec) ≤ sim → sim ≤ 1 →
      (((0.9 : Dec) ≤ sim →
          classifyRelationshipWithLLM (.error ()) sim = some "duplicate")
       ∧ ((0.8 : Dec) ≤ sim → sim < 0.9 →
          classifyRelationshipWithLLM (.error ()) sim = some "builds_on")
       ∧ (sim < 0.8 →
          classifyRelationshipWithLLM (.error ()) sim = none)) := by
  intro sim _ _
  refine ⟨?_, ?_, ?_⟩
  · intro h9
    unfold classifyRelationshipWithLLM
    rw [if_pos h9]
  · intro h8 h9
    unfold classifyRelationshipWithLLM
    rw [if_neg (Dec.not_le_of_lt h9), if_pos h8]
  · intro h8
    have h9 : sim < (0.9 : Dec) := Dec.lt_of_lt_of_le' h8 (by decide)
    unfold classifyRelationshipWithLLM
    rw [if_neg (Dec.not_le_of_lt h9), if_neg (Dec.not_le_of_lt h8)]

theorem claim_C6_witness :
    classifyRelationshipWithLLM (.error ()) (0.95 : Dec) = some "duplicate"
    ∧ classifyRelationshipWithLLM (.error ()) (0.82 : Dec) = some "builds_on"
    ∧ classifyRelationshipWithLLM (.error ()) (0.5 : Dec) = none :=
  ⟨(claim_C6_fallback 0.95 (by decide) (by decide)).1 (by decide),
   (claim_C6_fallback 0.82 (by decide) (by decide)).2.1 (by decide) (by decide),
   (claim_C6_fallback 0.5 (by decide) (by decide)).2.2 (by decide)⟩

/-- C7: from a state entering validation with no pending error, the
workflow moves to `SEARCH_SIMILAR` exactly when the validation result is
valid with confidence at least `0.7`; otherwise it moves to `RETRY` when
`retry_count < max_retries` and to the terminal failure otherwise. -/
theorem claim_C7_validate_edge :
    ∀ (env : WorkflowEnv) (s : FRState) (db : Ledger), s.error_message = none →
      (((stepWorkflow env Node.validate s db).1 = Node.search ↔
          ((validateRequestNode env s).is_valid = true ∧
            (0.7 : Dec) ≤ (validateRequestNode env s).confidence_score))
       ∧ (¬((validateRequestNode env s).is_valid = true ∧
            (0.7 : Dec) ≤ (validateRequestNode env s).confidence_score) →
           (((stepWorkflow env Node.validate s db).1 = Node.retry ↔
              s.retry_count < s.max_retries)
            ∧ (s.max_retries ≤ s.retry_count →
                (stepWorkflow env Node.validate s db).1 = Node.done)))) := by
  intro env s db herr
  have hnext : (stepWorkflow env Node.validate s db).1 =
      (if shouldProceedAfterValidation (validateRequestNode env s) = "proceed"
       then Node.search
       else if shouldProceedAfterValidation (validateRequestNode env s) = "retry"
       then Node.retry
       else Node.done) := rfl
  obtain ⟨hrc, hmax⟩ := validateRequestNode_counters env s
  have hform : shouldProceedAfterValidation (validateRequestNode env s) =
      if (validateRequestNode env s).is_valid = true ∧
          (0.7 : Dec) ≤ (validateRequestNode env s).confidence_score then "proceed"
      else if s.retry_count < s.max_retries then "retry" else "end" := by
    rcases hv : env.validateLLM s.retry_count with e | resp
    · have he : (validateRequestNode env s).error_message =
          some ("Validation failed: " ++ e) := by
        unfold validateRequestNode
        dsimp only
        rw [hv]
      have hval : (validateRequestNode env s).is_valid = false := by
        unfold validateRequestNode
        dsimp only
        rw [hv]
      rw [shouldProceed_of_error _ _ he, hrc, hmax,
        if_neg (by simp [hval] : ¬((validateRequestNode env s).is_valid = true ∧
          (0.7 : Dec) ≤ (validateRequestNode env s).confidence_score))]
    · have he : (validateRequestNode env s).error_message = none := by
        unfold validateRequestNode
        dsimp only
        rw [hv]
        exact herr
      rw [shouldProceed_of_no_error _ he, hrc, hmax]
  rw [hnext, hform]
  by_cases hP : (validateRequestNode env s).is_valid = true ∧
      (0.7 : Dec) ≤ (validateRequestNode env s).confidence_score
  · rw [if_pos hP, if_pos rfl]
    exact ⟨by simp [hP], fun hnp => absurd hP hnp⟩
  · rw [if_neg hP]
    constructor
    · by_cases hc : s.retry_count < s.max_retries
      · rw [if_pos hc, if_neg (by decide), if_pos rfl]
        simp [hP]
      · rw [if_neg hc, if_neg (by decide), if_neg (by decide)]
        simp [hP]
    · intro _
      constructor
      · by_cases hc : s.retry_count < s.max_retries
        · rw [if_pos hc, if_neg (by decide), if_pos rfl]
          simp [hc]
        · rw [if_neg hc, if_neg (by decide), if_neg (by decide)]
          simp [hc]
      · intro hge
        have hc : ¬ s.retry_count < s.max_retries := by omega
        rw [if_neg hc, if_neg (by decide), if_neg (by decide)]

theorem claim_C7_witness :
    (stepWorkflow env65 Node.validate (initialFRState "t" "d" "new_feature")
      emptyLedger).1 = Node.retry :=
  ((claim_C7_validate_edge env65 (initialFRState "t" "d" "new_feature") emptyLedger
    rfl).2 (by decide)).1.mpr (by decide)

/-- C10: an oracle reply that does not decode as the expected JSON is
turned into the fixed fallback `ValidationResult` (incomplete, confidence
`0.3`, non-empty issues) instead of raising, and from a pre-validation
state with retries remaining such a reply sends the workflow down the
`RETRY` edge. -/
theorem claim_C10_parse_fallback :
    ∀ response : String,
      tryParseValidation (cleanJsonResponse response) = none →
        parseValidationResponse response = fallbackValidationResult
        ∧ (parseValidationResponse response).is_complete = false
        ∧ (parseValidationResponse response).confidence_score = (0.3 : Dec)
        ∧ (parseValidationResponse response).issues ≠ []
        ∧ (∀ (env : WorkflowEnv) (s : FRState),
            env.validateLLM s.retry_count = .ok response →
            s.error_message = none → s.retry_count < s.max_retries →
            shouldProceedAfterValidation (validateRequestNode env s) = "retry") := by
  intro response h
  have hp : parseValidationResponse response = fallbackValidationResult := by
    unfold parseValidationResponse
    rw [h]
  refine ⟨hp, by rw [hp]; rfl, by rw [hp]; rfl,
    by rw [hp]; simp [fallbackValidationResult], ?_⟩
  intro env s hv herr hcnt
  have hval : (validateRequestNode env s).is_valid = false := by
    unfold validateRequestNode
    dsimp only
    rw [hv]
    show (parseValidationResponse response).is_complete = false
    rw [hp]
    rfl
  have he : (validateRequestNode env s).error_message = none := by
    unfold validateRequestNode
    dsimp only
    rw [hv]
    exact herr
  obtain ⟨hrc, hmax⟩ := validateRequestNode_counters env s
  rw [shouldProceed_of_no_error _ he, if_neg (by simp [hval]), hrc, hmax, if_pos hcnt]


theorem claim_C10_witness :
    parseValidationResponse "not json" = fallbackValidationResult ∧
    shouldProceedAfterValidation (validateRequestNode envNotJson
      (initialFRState "t" "d" "new_feature")) = "retry" := by
  have h := claim_C10_parse_fallback "not json" (by decide)
  exact ⟨h.1, h.2.2.2.2 envNotJson (initialFRState "t" "d" "new_feature") rfl rfl (by decide)⟩

/-- C8: writing a Document twice for the same `(feature_id, document_type)`
key leaves exactly one row for that key, whose `created_at` is the first
call's timestamp while `content` and `updated_at` come from the second
call. -/
theorem claim_C8_document_upsert :
    ∀ (db : Ledger) (fid dtype c1 c2 : String) (t1 t2 : Nat),
      (∀ d ∈ db.feature_documents, ¬(d.feature_id = fid ∧ d.document_type = dtype)) →
      dtype ∈ validDocumentTypes →
      (db.features.any fun f => f.feature_id = fid) = true →
      ∃ db1 db2,
        add_feature_document db fid dtype c1 t1 = .ok (db1, true) ∧
        add_feature_document db1 fid dtype c2 t2 = .ok (db2, true) ∧
        db2.feature_documents.filter
            (fun d => decide (d.feature_id = fid ∧ d.document_type = dtype))
          = [(⟨fid, dtype, c2, t1, t2⟩ : DocumentRow)] ∧
        db2.features = db.features := by
  intro db fid dtype c1 c2 t1 t2 hnone hvalid hfk
  have hex1 : (db.feature_documents.any fun d =>
      d.feature_id = fid ∧ d.document_type = dtype) = false := by
    rw [List.any_eq_false]
    intro d hd
    simpa using hnone d hd
  have h1 : add_feature_document db fid dtype c1 t1 =
      .ok ({ db with feature_documents :=
        db.feature_documents ++ [(⟨fid, dtype, c1, t1, t1⟩ : DocumentRow)] }, true) := by
    unfold add_feature_document
    dsimp only
    rw [hex1]
    rw [if_neg (by simp), if_neg (by simp [hvalid]), if_neg (by simp [hfk])]
  have hex2 : ((db.feature_documents ++ [(⟨fid, dtype, c1, t1, t1⟩ : DocumentRow)]).any fun d =>
      d.feature_id = fid ∧ d.document_type = dtype) = true := by
    rw [List.any_append]
    simp
  have h2 : add_feature_document
      { db with feature_documents := db.feature_documents ++ [(⟨fid, dtype, c1, t1, t1⟩ : DocumentRow)] }
      fid dtype c2 t2 =
      .ok ({ db with feature_documents :=
        (db.feature_documents ++ [(⟨fid, dtype, c1, t1, t1⟩ : DocumentRow)]).map fun (d : DocumentRow) =>
          if d.feature_id = fid ∧ d.document_type = dtype then
            { d with content := c2, updated_at := t2 }
          else d }, true) := by
    unfold add_feature_document
    dsimp only
    rw [hex2]
    rw [if_pos rfl]
  have hmap : ((db.feature_documents ++ [(⟨fid, dtype, c1, t1, t1⟩ : DocumentRow)]).map fun (d : DocumentRow) =>
      if d.feature_id = fid ∧ d.document_type = dtype then
        { d with content := c2, updated_at := t2 }
      else d) = db.feature_documents ++ [(⟨fid, dtype, c2, t1, t2⟩ : DocumentRow)] := by
    rw [List.map_append]
    congr 1
    · have : ∀ d ∈ db.feature_documents,
          (if d.feature_id = fid ∧ d.document_type = dtype then
            { d with content := c2, updated_at := t2 }
          else d) = id d := by
        intro d hd
        rw [if_neg (hnone d hd)]
        rfl
      rw [List.map_congr_left this, List.map_id]
    · simp
  refine ⟨_, _, h1, h2, ?_, rfl⟩
  rw [hmap]
  dsimp only
  rw [List.filter_append]
  rw [List.filter_eq_nil_iff.2 (fun d hd => by simpa using hnone d hd)]
  simp

theorem claim_C8_witness :
    (match add_feature_document dbOne "TP-001" "feature_request" "v1" 10 with
     | .ok p =>
       match add_feature_document p.1 "TP-001" "feature_request" "v2" 20 with
       | .ok q => q.1.feature_documents.filter
           (fun d => decide (d.feature_id = "TP-001" ∧ d.document_type = "feature_request"))
       | .error _ => []
     | .error _ => []) = [⟨"TP-001", "feature_request", "v2", 10, 20⟩] := by
  obtain ⟨db1, db2, h1, h2, h3, _⟩ :=
    claim_C8_document_upsert dbOne "TP-001" "feature_request" "v1" "v2" 10 20
      (by simp [dbOne]) (by decide) (by decide)
  rw [h1]
  dsimp only
  rw [h2]
  dsimp only
  exact h3

/-- C4 (amended): the ledger operations perform no status-transition
validation.  `update_feature_status` sets any status allowed by the enum
CHECK constraint regardless of the row's current status — backward moves
and moves out of the terminal statuses included — and reports only
whether the id matched; `mark_feature_implemented` stamps `validated`
from any current status; `mark_feature_superseded` stamps `superseded`
from any current status. -/
theorem claim_C4_status_unguarded :
    (∀ (db : Ledger) (fid st : String) (ts : Option String) (now : Nat),
        st ∈ validStatuses →
        ∃ db', update_feature_status db fid st ts now =
            .ok (db', db.features.any fun f => f.feature_id = fid) ∧
          db'.features.length = db.features.length ∧
          (∀ g ∈ db'.features, g.feature_id = fid → g.status = st) ∧
          (∀ g ∈ db'.features, g.feature_id ≠ fid → g ∈ db.features))
    ∧ (∀ (db : Ledger) (fid : String) (ch : Option String)
          (cf : Option (List String)) (now : Nat),
        ∀ g ∈ (mark_feature_implemented db fid ch cf now).1.features,
          g.feature_id = fid → g.status = "validated")
    ∧ (∀ (db : Ledger) (fid : String) (now : Nat),
        ∃ db', mark_feature_superseded db fid now =
            .ok (db', db.features.any fun f => f.feature_id = fid) ∧
          ∀ g ∈ db'.features, g.feature_id = fid → g.status = "superseded") := by
  have hmain : ∀ (db : Ledger) (fid st : String) (ts : Option String) (now : Nat),
      st ∈ validStatuses →
      ∃ db', update_feature_status db fid st ts now =
          .ok (db', db.features.any fun f => f.feature_id = fid) ∧
        db'.features.length = db.features.length ∧
        (∀ g ∈ db'.features, g.feature_id = fid → g.status = st) ∧
        (∀ g ∈ db'.features, g.feature_id ≠ fid → g ∈ db.features) := by
    intro db fid st ts now hst
    refine ⟨{ db with features := db.features.map fun f =>
        if f.feature_id = fid then
          if ts = some "date_implemented" then
            { f with status := st, date_implemented := some now }
          else if ts = some "date_superseded" then
            { f with status := st, date_superseded := some now }
          else { f with status := st }
        else f }, ?_, ?_, ?_, ?_⟩
    · unfold update_feature_status
      rw [if_neg (by simp [hst])]
    · simp
    · intro g hg hgid
      obtain ⟨f, _, hfg⟩ := List.mem_map.1 hg
      by_cases hf : f.feature_id = fid
      · rw [← hfg]
        split_ifs <;> rfl
      · rw [← hfg] at hgid ⊢
        rw [if_neg hf] at hgid
        exact absurd hgid hf
    · intro g hg hgid
      obtain ⟨f, hf, hfg⟩ := List.mem_map.1 hg
      by_cases hfid : f.feature_id = fid
      · exfalso
        apply hgid
        rw [← hfg, if_pos hfid]
        split_ifs <;> exact hfid
      · rw [← hfg, if_neg hfid]
        exact hf
  refine ⟨hmain, ?_, ?_⟩
  · intro db fid ch cf now g hg hgid
    unfold mark_feature_implemented at hg
    dsimp only at hg
    obtain ⟨f, _, hfg⟩ := List.mem_map.1 hg
    by_cases hf : f.feature_id = fid
    · rw [← hfg, if_pos hf]
    · rw [← hfg] at hgid
      rw [if_neg hf] at hgid
      exact absurd hgid hf
  · intro db fid now
    obtain ⟨db', heq, _, hset, _⟩ := hmain db fid "superseded" (some "date_superseded") now
      (by decide)
    exact ⟨db', heq, hset⟩

theorem claim_C4_counterexample :
    update_feature_status dbValidatedOne "TP-001" "requested" none 1 = .ok (dbOne, true)
    ∧ statusChain.indexOf "requested" < statusChain.indexOf "validated" := by
  constructor
  · decide
  · decide

theorem claim_C4_witness :
    Except.map (fun p => p.2) (mark_feature_superseded dbOne "TP-001" 7) = .ok true := by
  obtain ⟨db', heq, _⟩ := claim_C4_status_unguarded.2.2 dbOne "TP-001" 7
  rw [heq]
  simp only [Except.map]
  decide

/-- C1: the storage node is not atomic.  With one confirmed relationship,
`_store_feature_node` first commits the new Feature through
`add_feature`'s own transaction, then fails inserting the relationship
(the statement targets `feature_relationships`, a table `SCHEMA_SQL`
never creates), and returns failure — while the Feature row stays
committed, no relationship row exists, and no `feature_request` Document
row was ever written to the ledger: a partially committed state is
observable after the node returns. -/
theorem claim_C1_store_partial_commit :
    ((storeFeatureNode envReject stateConf dbOne).1.stored_successfully = false)
    ∧ ((storeFeatureNode envReject stateConf dbOne).1.error_message =
        some "Storage failed: no such table: feature_relationships")
    ∧ ((storeFeatureNode envReject stateConf dbOne).2.features.map
        (fun f => f.feature_id) = ["TP-001", "TP-002"])
    ∧ ((storeFeatureNode envReject stateConf dbOne).2.feature_relations = [])
    ∧ ((storeFeatureNode envReject stateConf dbOne).2.feature_documents = []) := by
  refine ⟨?_, ?_, ?_, ?_, ?_⟩ <;> decide

/-- C3 (amended): every pass through the retry node increments
`retry_count` by exactly one; along any run the counter never exceeds
`max_retries`; the graph always reaches `END` within the measure bound;
and constant validation confidence `0.65` produces three retry cycles and
then the terminal state with nothing stored — the terminal state's
`error_message`, however, is `none`, because `_handle_retry_node` clears
it, so the failure is signalled by `stored_successfully = false` and
`feature_id = none` rather than by a populated error message. -/
theorem claim_C3_retry_bound :
    (∀ s : FRState, (handleRetryNode s).retry_count = s.retry_count + 1)
    ∧ (∀ (env : WorkflowEnv) (fuel : Nat) (n : Node) (s : FRState) (db : Ledger),
        RetryInv n s →
        (runWorkflow env fuel n s db).2.1.retry_count ≤
          (runWorkflow env fuel n s db).2.1.max_retries)
    ∧ (∀ (env : WorkflowEnv) (fuel : Nat) (n : Node) (s : FRState) (db : Ledger),
        workflowMeasure n s < fuel → (runWorkflow env fuel n s db).1 = Node.done)
    ∧ ((runWorkflow env65 25 Node.validate (initialFRState "t" "d" "new_feature")
          emptyLedger).1 = Node.done
       ∧ (runWorkflow env65 25 Node.validate (initialFRState "t" "d" "new_feature")
          emptyLedger).2.1.retry_count = 3
       ∧ (runWorkflow env65 25 Node.validate (initialFRState "t" "d" "new_feature")
          emptyLedger).2.1.stored_successfully = false
       ∧ (runWorkflow env65 25 Node.validate (initialFRState "t" "d" "new_feature")
          emptyLedger).2.1.feature_id = none
       ∧ (runWorkflow env65 25 Node.validate (initialFRState "t" "d" "new_feature")
          emptyLedger).2.1.error_message = none
       ∧ (runWorkflow env65 25 Node.validate (initialFRState "t" "d" "new_feature")
          emptyLedger).2.2 = emptyLedger) := by
  refine ⟨fun s => rfl, ?_, ?_, ?_⟩
  · intro env fuel n s db h
    exact (runWorkflow_inv env fuel n s db h).1
  · intro env fuel n s db h
    exact runWorkflow_done env fuel n s db h
  · refine ⟨?_, ?_, ?_, ?_, ?_, ?_⟩ <;> decide

theorem claim_C3_counterexample :
    (runWorkflow env65 25 Node.validate (initialFRState "t" "d" "new_feature")
      emptyLedger).1 = Node.done
    ∧ (runWorkflow env65 25 Node.validate (initialFRState "t" "d" "new_feature")
      emptyLedger).2.1.retry_count = 3
    ∧ ¬ (runWorkflow env65 25 Node.validate (initialFRState "t" "d" "new_feature")
      emptyLedger).2.1.error_message ≠ none := by
  refine ⟨?_, ?_, ?_⟩ <;> decide

theorem claim_C3_witness :
    (runWorkflow env65 25 Node.validate (initialFRState "t" "d" "new_feature")
      emptyLedger).2.1.retry_count ≤
    (runWorkflow env65 25 Node.validate (initialFRState "t" "d" "new_feature")
      emptyLedger).2.1.max_retries :=
  claim_C3_retry_bound.2.1 env65 25 Node.validate
    (initialFRState "t" "d" "new_feature") emptyLedger
    ⟨by decide, fun h => Node.noConfusion h⟩

/-- C9: only the storage node mutates the ledger — every other node's
transition leaves it unchanged, a run that never reaches the storage node
leaves it unchanged — and in particular the run in which the user rejects
the high-confidence duplicate at the confirmation gate until retries are
exhausted terminates before storage with zero rows added to `features`. -/
theorem claim_C9_only_store_mutates :
    (∀ (env : WorkflowEnv) (n : Node) (s : FRState) (db : Ledger),
        n ≠ Node.store → (stepWorkflow env n s db).2.2 = db)
    ∧ (∀ (env : WorkflowEnv) (fuel : Nat) (n : Node) (s : FRState) (db : Ledger),
        runVisitsStore env fuel n s db = false →
        (runWorkflow env fuel n s db).2.2 = db)
    ∧ (runVisitsStore envReject 25 Node.validate
        (initialFRState "t" "d" "new_feature") dbOne = false
       ∧ (runWorkflow envReject 25 Node.validate
          (initialFRState "t" "d" "new_feature") dbOne).1 = Node.done
       ∧ (runWorkflow envReject 25 Node.validate
          (initialFRState "t" "d" "new_feature") dbOne).2.1.current_stage
            = "user_confirmation"
       ∧ (runWorkflow envReject 25 Node.validate
          (initialFRState "t" "d" "new_feature") dbOne).2.1.stored_successfully = false
       ∧ (runWorkflow envReject 25 Node.validate
          (initialFRState "t" "d" "new_feature") dbOne).2.2 = dbOne) := by
  refine ⟨stepWorkflow_frame, runWorkflow_frame, ?_⟩
  refine ⟨?_, ?_, ?_, ?_, ?_⟩ <;> decide

theorem claim_C9_witness :
    (stepWorkflow envReject Node.validate (initialFRState "t" "d" "new_feature")
      dbOne).2.2 = dbOne
    ∧ (runWorkflow envReject 25 Node.validate (initialFRState "t" "d" "new_feature")
      dbOne).2.2 = dbOne :=
  ⟨claim_C9_only_store_mutates.1 envReject Node.validate
      (initialFRState "t" "d" "new_feature") dbOne (by decide),
   claim_C9_only_store_mutates.2.1 envReject 25 Node.validate
      (initialFRState "t" "d" "new_feature") dbOne (by decide)⟩

/-- C2: starting from an empty project, `N` sequential `add_feature`
calls with prefix `TP` return exactly `TP-001 … TP-00N` in call order;
in general a call allocates the maximal existing cast numeric suffix for
the project's prefix plus one (`1` when none exists) and inserts the new
row with status `requested`. -/
theorem claim_C2_sequential_ids :
    (∀ (datas : Nat → FeatureData) (N : Nat),
        (∀ i, (datas i).status = none) →
        (∀ i, (datas i).type.getD "new_feature" ∈ validFeatureTypes) →
        (∀ i, (datas i).relations = none) →
        (addFeatureSeq "TP" datas N).2 =
          (List.range N).map (fun i => mkFeatureId "TP" (i + 1)))
    ∧ (∀ (initials : String) (db : Ledger) (data : FeatureData) (now : Nat),
        (∀ c ∈ initials.data, c ≠ '-') → WellFormedFor initials db →
        data.status = none →
        data.type.getD "new_feature" ∈ validFeatureTypes →
        data.relations = none →
        add_feature initials db data now =
          .ok (mkFeatureId initials (maxSuffix initials db + 1),
               { db with features := db.features ++ [newFeatureRow initials db data now] })
        ∧ (newFeatureRow initials db data now).status = "requested")
    ∧ (∀ (initials : String) (db : Ledger) (f : FeatureRow),
        f ∈ db.features → likeDashPercent initials f.feature_id = true →
        castSuffix initials f.feature_id ≤ maxSuffix initials db) := by
  refine ⟨?_, ?_, ?_⟩
  · intro datas N h1 h2 h3
    exact (addFeatureSeq_spec "TP" datas (by decide) h1 h2 h3 N).2
  · intro initials db data now hdash hwf hs ht hr
    exact ⟨add_feature_ok initials db data now hdash hwf hs ht hr, rfl⟩
  · intro initials db f hf hl
    exact maxSuffix_is_max initials db f hf hl

theorem claim_C2_witness :
    (addFeatureSeq "TP" (fun _ => { type := some "new_feature", title := some "T" }) 3).2 =
      ["TP-001", "TP-002", "TP-003"] := by
  have h := claim_C2_sequential_ids.1
    (fun _ => { type := some "new_feature", title := some "T" }) 3
    (fun _ => rfl)
    (fun _ => (by decide : ("new_feature" : String) ∈ validFeatureTypes))
    (fun _ => rfl)
  rw [h]
  decide
